import Mathlib

/-!
Shallow embedding of the streamtotext audio pipeline (streamtotext/audio.py):
the AudioChunk value type and chunk algebra, the EvenChunkIterator resegmenter,
and the SquelchedSource voice-activity detector, together with theorems that
check the specification's claims against this embedding.

Audio byte buffers are modelled as lists of naturals; Python ints and floats
appearing in thresholds are modelled as rationals; fallible operations
(assertions, IndexError, StopIteration) are modelled with Option.
-/

namespace StreamToText

/-- An audio chunk (audio.py line 16): a raw sample buffer with timing and
format metadata. -/
structure AudioChunk where
  start_time : ℚ
  audio : List ℕ
  width : ℕ
  freq : ℕ
deriving DecidableEq, Repr

/-- audio.py line 20: sample count of a chunk, the integer part of byte
length divided by width. -/
def chunk_sample_cnt (chunk : AudioChunk) : ℕ :=
  chunk.audio.length / chunk.width

/-- audio.py lines 24-30: merge_chunks concatenates the audio buffers in
order and takes start_time, width and freq from the first chunk; the assert
on a non-empty argument is modelled by returning none on the empty list.
No width or freq consistency check is performed. -/
def merge_chunks (chunks : List AudioChunk) : Option AudioChunk :=
  match chunks with
  | [] => none
  | c :: rest =>
    some ⟨c.start_time, ((c :: rest).map (fun x => x.audio)).join, c.width, c.freq⟩

/-- Python slice a[:stop] for an arbitrary integer stop: a negative stop
counts from the end, an out-of-range stop clamps, and a[:-0] is a[:0], the
empty list. -/
def pyTake (a : List ℕ) (stop : ℤ) : List ℕ :=
  if stop < 0 then a.take (a.length - stop.natAbs) else a.take stop.toNat

/-- Python slice a[start:] for an arbitrary integer start. -/
def pyDrop (a : List ℕ) (start : ℤ) : List ℕ :=
  if start < 0 then a.drop (a.length - start.natAbs) else a.drop start.toNat

/-- audio.py lines 33-43: split_chunk computes offset = sample_offset * width
and returns the pair of chunks carrying audio[:-offset] and audio[offset:],
both keeping start_time, width and freq. No validation is performed. -/
def split_chunk (chunk : AudioChunk) (sample_offset : ℤ) : AudioChunk × AudioChunk :=
  (⟨chunk.start_time, pyTake chunk.audio (-(sample_offset * (chunk.width : ℤ))),
    chunk.width, chunk.freq⟩,
   ⟨chunk.start_time, pyDrop chunk.audio (sample_offset * (chunk.width : ℤ)),
    chunk.width, chunk.freq⟩)

/-- Total byte length of a list of chunks. -/
def byteLen (l : List AudioChunk) : ℕ := (l.map (fun c => c.audio.length)).sum

/-- Total sample count of a list of chunks. -/
def sampleSum (l : List AudioChunk) : ℕ := (l.map chunk_sample_cnt).sum

/-- audio.py lines 55-77: the accumulation loop of EvenChunkIterator.__next__.
Arguments: target chunk size cs, the remaining source chunks, the accumulated
sample_queue and the running sample count. Returns the queue to merge, the
leftover carry chunk and the remaining source chunks, or none when the source
raises StopIteration before enough samples accumulate. -/
def evenLoop (cs : ℕ) : List AudioChunk → List AudioChunk → ℕ →
    Option (List AudioChunk × Option AudioChunk × List AudioChunk)
  | [], acc, ret => if ret < cs then none else some (acc, none, [])
  | c :: rs, acc, ret =>
    if ret < cs then
      if cs < ret + chunk_sample_cnt c then
        some (acc ++ [(split_chunk c ((ret + chunk_sample_cnt c - cs : ℕ) : ℤ)).1],
              some (split_chunk c ((ret + chunk_sample_cnt c - cs : ℕ) : ℤ)).2, rs)
      else
        evenLoop cs rs (acc ++ [c]) (ret + chunk_sample_cnt c)
    else some (acc, none, c :: rs)

/-- The pending carry chunk held in _cur_chunk, if any, is consumed before
the underlying iterator (audio.py line 60). -/
def streamOf (cur : Option AudioChunk) (rest : List AudioChunk) : List AudioChunk :=
  match cur with
  | some c => c :: rest
  | none => rest

/-- One pull on EvenChunkIterator (audio.py lines 55-77) from carry state cur
and remaining source rest: run the accumulation loop, then merge the queue.
Returns the emitted chunk, the new carry and the remaining source. -/
def evenNext (cs : ℕ) (cur : Option AudioChunk) (rest : List AudioChunk) :
    Option (AudioChunk × Option AudioChunk × List AudioChunk) :=
  match evenLoop cs (streamOf cur rest) [] 0 with
  | none => none
  | some (q, l, rs) =>
    match merge_chunks q with
    | none => none
    | some m => some (m, l, rs)

/-- RMS energies of a list of chunks (audio.py line 310). The audioop.rms
routine is an external C library collaborator, abstracted as the parameter
rmsF applied to a chunk's audio and width. -/
def rmsList (rmsF : List ℕ → ℕ → ℕ) (chunks : List AudioChunk) : List ℕ :=
  chunks.map (fun x => rmsF x.audio x.width)

/-- audio.py line 311: the selected median value, sorted(rms_vals)[int(len * .5)].
None when the list is empty, where Python would raise IndexError. -/
def median_rms (vals : List ℕ) : Option ℕ :=
  (List.insertionSort (fun a b => a ≤ b) vals).get? (vals.length / 2)

/-- audio.py lines 309-321: SquelchedSource.check_squelch. The Active branch
compares the median against the level argument times 0.8; the Silence branch
compares against the squelch_level attribute (self_level here). get_chunk
passes the same value for both. -/
def check_squelch (rmsF : List ℕ → ℕ → ℕ) (self_level level : ℚ) (is_triggered : Bool)
    (chunks : List AudioChunk) : Option Bool :=
  match median_rms (rmsList rmsF chunks) with
  | none => none
  | some m =>
    if is_triggered then
      if (m : ℚ) < level * (8 / 10) then some false else some true
    else
      if self_level < (m : ℚ) then some true else some false

/-- Appending to a deque with maxlen (audio.py line 259): the oldest entries
are evicted from the left once capacity is exceeded. -/
def pushRing (maxlen : ℕ) (buf : List AudioChunk) (c : AudioChunk) : List AudioChunk :=
  if maxlen < (buf ++ [c]).length then
    (buf ++ [c]).drop ((buf ++ [c]).length - maxlen)
  else buf ++ [c]

/-- The mutable state read and written by SquelchedSource.get_chunk:
the hysteresis flag, the lookback ring buffer, and the state of the
resegmenting iterator it pulls from (carry chunk plus remaining source). -/
structure SState where
  triggered : Bool
  recent : List AudioChunk
  cur : Option AudioChunk
  rest : List AudioChunk
deriving DecidableEq, Repr

/-- Outcome of one iteration of the get_chunk loop body: the pull or median
fails, a chunk is returned, or the loop repeats with updated state. -/
inductive StepResult where
  | fail : StepResult
  | emit : AudioChunk → SState → StepResult
  | again : SState → StepResult
deriving DecidableEq, Repr

/-- audio.py lines 292-307: one iteration of the loop body of
SquelchedSource.get_chunk. Pull the next fixed-size chunk, push it into the
lookback ring buffer, recompute the squelch state; on a Silence to Active
transition return the merged lookback buffer, while Active return the chunk
just pulled, otherwise repeat. -/
def getChunkIter (rmsF : List ℕ → ℕ → ℕ) (level : ℚ) (maxlen cs : ℕ) (st : SState) :
    StepResult :=
  match evenNext cs st.cur st.rest with
  | none => StepResult.fail
  | some (chunk, cur2, rest2) =>
    match check_squelch rmsF level level st.triggered (pushRing maxlen st.recent chunk) with
    | none => StepResult.fail
    | some trig =>
      if trig then
        if st.triggered then
          StepResult.emit chunk ⟨trig, pushRing maxlen st.recent chunk, cur2, rest2⟩
        else
          match merge_chunks (pushRing maxlen st.recent chunk) with
          | none => StepResult.fail
          | some m => StepResult.emit m ⟨trig, pushRing maxlen st.recent chunk, cur2, rest2⟩
      else StepResult.again ⟨trig, pushRing maxlen st.recent chunk, cur2, rest2⟩

/-- The while True loop of SquelchedSource.get_chunk, with explicit fuel
bounding the number of iterations considered. -/
def getChunkLoop (rmsF : List ℕ → ℕ → ℕ) (level : ℚ) (maxlen cs : ℕ) :
    ℕ → SState → Option (AudioChunk × SState)
  | 0, _ => none
  | fuel + 1, st =>
    match getChunkIter rmsF level maxlen cs st with
    | StepResult.fail => none
    | StepResult.emit c st2 => some (c, st2)
    | StepResult.again st2 => getChunkLoop rmsF level maxlen cs fuel st2

/-- The configuration fields set by SquelchedSource.__init__
(audio.py lines 255-266): sample_size and prefix_samples are stored, the
sample width is the literal 2, and the steady-state resegmenting iterator is
built with the literal chunk size 1600 regardless of sample_size. -/
structure SquelchedSource where
  sample_size : ℕ
  squelch_level : Option ℚ
  lookback_cap : ℕ
  sample_width : ℕ
  even_iter_cs : ℕ
deriving DecidableEq, Repr

/-- audio.py lines 256-266: the constructor. -/
def SquelchedSource.init (sample_size : ℕ) (squelch_level : Option ℚ)
    (lookback_cap : ℕ) : SquelchedSource :=
  ⟨sample_size, squelch_level, lookback_cap, 2, 1600⟩

/-- audio.py lines 273-274: the chunk size of the iterator built by
detect_squelch_level is the stored sample_size. -/
def SquelchedSource.calib_iter_cs (s : SquelchedSource) : ℕ := s.sample_size

/-- audio.py lines 281-283: the RMS values of the qualifying calibration
chunks, those whose byte length is exactly sample_size * sample_width. -/
def calib_rms_vals (rmsF : List ℕ → ℕ → ℕ) (s : SquelchedSource)
    (audio_chunks : List AudioChunk) : List ℕ :=
  (audio_chunks.filter (fun x => x.audio.length = s.sample_size * s.sample_width)).map
    (fun x => rmsF x.audio s.sample_width)

/-- audio.py lines 281-286: the level computed by detect_squelch_level over
the chunks collected during the timed loop (the wall-clock collection itself
is abstracted as the list audio_chunks): sorted(rms_vals)[int(threshold * len):][0],
with none where Python raises IndexError. -/
def detect_level (rmsF : List ℕ → ℕ → ℕ) (s : SquelchedSource) (threshold : ℚ)
    (audio_chunks : List AudioChunk) : Option ℕ :=
  match (List.insertionSort (fun a b => a ≤ b) (calib_rms_vals rmsF s audio_chunks)).drop
      (Int.toNat ⌊threshold * ((calib_rms_vals rmsF s audio_chunks).length : ℚ)⌋) with
  | [] => none
  | v :: _ => some v

/-- A 1000-sample input chunk (2000 bytes, width 2) for the worked example of
the specification, with start time t. -/
def exampleChunk (t : ℚ) : AudioChunk := ⟨t, List.replicate 2000 0, 2, 16000⟩

/-- The carry chunk the code actually produces after the first pull of the
worked example: the last 1200 bytes (600 samples) of the second input. -/
def exampleLeft : AudioChunk := ⟨1, List.replicate 1200 0, 2, 16000⟩

lemma byteLen_append (a b : List AudioChunk) : byteLen (a ++ b) = byteLen a + byteLen b := by
  simp [byteLen]

lemma split_fst_len (c : AudioChunk) (ov : ℕ) (hw : 0 < c.width) (h1 : 0 < ov) :
    ((split_chunk c (ov : ℤ)).1).audio.length = c.audio.length - ov * c.width := by
  have hpos : (0 : ℤ) < (ov : ℤ) * (c.width : ℤ) := by
    exact_mod_cast Nat.mul_pos h1 hw
  simp only [split_chunk, pyTake]
  rw [if_pos (by omega : -((ov : ℤ) * (c.width : ℤ)) < 0)]
  rw [List.length_take]
  have habs : ((-((ov : ℤ) * (c.width : ℤ))).natAbs) = ov * c.width := by
    rw [Int.natAbs_neg, Int.natAbs_mul]; simp
  rw [habs]
  exact Nat.min_eq_left (Nat.sub_le _ _)

lemma evenLoop_spec (cs w : ℕ) (hw : 0 < w) :
    ∀ (rest acc : List AudioChunk) (ret : ℕ) (q : List AudioChunk)
      (l : Option AudioChunk) (rs : List AudioChunk),
      (∀ c ∈ rest, c.width = w ∧ w ∣ c.audio.length) →
      (∀ c ∈ acc, c.width = w ∧ w ∣ c.audio.length) →
      byteLen acc = ret * w →
      evenLoop cs rest acc ret = some (q, l, rs) →
      (∀ c ∈ q, c.width = w ∧ w ∣ c.audio.length) ∧ byteLen q = max cs ret * w := by
  intro rest
  induction rest with
  | nil =>
    intro acc ret q l rs _ hacc hlen h
    by_cases hr : ret < cs
    · simp only [evenLoop, if_pos hr] at h
      exact Option.noConfusion h
    · simp only [evenLoop, if_neg hr, Option.some.injEq, Prod.mk.injEq] at h
      obtain ⟨rfl, rfl, rfl⟩ := h
      exact ⟨hacc, by rw [hlen, Nat.max_eq_right (le_of_not_lt hr)]⟩
  | cons c rs0 ih =>
    intro acc ret q l rs hrest hacc hlen h
    by_cases hr : ret < cs
    case neg =>
      simp only [evenLoop, if_neg hr, Option.some.injEq, Prod.mk.injEq] at h
      obtain ⟨rfl, rfl, rfl⟩ := h
      exact ⟨hacc, by rw [hlen, Nat.max_eq_right (le_of_not_lt hr)]⟩
    by_cases hov : cs < ret + chunk_sample_cnt c
    case pos =>
      -- overshoot branch: the last pulled chunk is split
      simp only [evenLoop, if_pos hr, if_pos hov, Option.some.injEq, Prod.mk.injEq] at h
      obtain ⟨rfl, rfl, rfl⟩ := h
      have hc := hrest c (by simp)
      have hcw : c.width = w := hc.1
      obtain ⟨k, hk⟩ := hc.2
      have hcnt : chunk_sample_cnt c = k := by
        simp [chunk_sample_cnt, hk, hcw, Nat.mul_div_cancel_left k hw]
      set ov := ret + chunk_sample_cnt c - cs with hov_def
      have hov1 : 0 < ov := by omega
      have hovk : ov + (cs - ret) = k := by omega
      have hflen := split_fst_len c ov (by rw [hcw]; exact hw) hov1
      have hp1 : ((split_chunk c (ov : ℤ)).1).audio.length = w * (cs - ret) := by
        rw [hflen, hcw, hk, ← hovk, Nat.mul_add, Nat.mul_comm w ov, Nat.add_sub_cancel_left]
      constructor
      · intro x hx
        rcases List.mem_append.mp hx with hx | hx
        · exact hacc x hx
        · have hx' : x = (split_chunk c (ov : ℤ)).1 := by simpa using hx
          subst hx'
          exact ⟨by simp [split_chunk, hcw], by rw [hp1]; exact Dvd.intro _ rfl⟩
      · rw [byteLen_append, hlen]
        have hsingle : byteLen [(split_chunk c (ov : ℤ)).1] = w * (cs - ret) := by
          simpa [byteLen] using hp1
        rw [hsingle, Nat.max_eq_left (le_of_lt hr)]
        obtain ⟨d, hd⟩ := Nat.exists_eq_add_of_le (le_of_lt hr)
        subst hd
        simp [Nat.add_sub_cancel_left]
        ring
    · -- accumulate branch: recurse on the remaining source
      simp only [evenLoop, if_pos hr, if_neg hov] at h
      have hc := hrest c (by simp)
      have hcw : c.width = w := hc.1
      obtain ⟨k, hk⟩ := hc.2
      have hcnt : chunk_sample_cnt c = k := by
        simp [chunk_sample_cnt, hk, hcw, Nat.mul_div_cancel_left k hw]
      have ih' := ih (acc ++ [c]) (ret + chunk_sample_cnt c) q l rs
        (fun x hx => hrest x (by simp [hx]))
        (fun x hx => by
          rcases List.mem_append.mp hx with hx | hx
          · exact hacc x hx
          · have hx' : x = c := by simpa using hx
            subst hx'; exact hc)
        (by rw [byteLen_append, hlen, hcnt]; simp [byteLen, hk]; ring)
        h
      obtain ⟨hfq, hbq⟩ := ih'
      refine ⟨hfq, ?_⟩
      rw [hbq, Nat.max_eq_left (le_of_not_lt hov), Nat.max_eq_left (le_of_lt hr)]

lemma evenLoop_none (cs : ℕ) :
    ∀ (rest acc : List AudioChunk) (ret : ℕ),
      ret + sampleSum rest < cs → evenLoop cs rest acc ret = none := by
  intro rest
  induction rest with
  | nil =>
    intro acc ret h
    have hr : ret < cs := by simp [sampleSum] at h; omega
    simp [evenLoop, hr]
  | cons c rs0 ih =>
    intro acc ret h
    have hs : sampleSum (c :: rs0) = chunk_sample_cnt c + sampleSum rs0 := by
      simp [sampleSum]
    rw [hs] at h
    have h1 : ret < cs := by omega
    have h2 : ¬ cs < ret + chunk_sample_cnt c := by omega
    simp only [evenLoop]
    rw [if_pos h1, if_neg h2]
    exact ih (acc ++ [c]) (ret + chunk_sample_cnt c) (by omega)

lemma evenNext_size (cs w : ℕ) (hcs : 0 < cs) (hw : 0 < w)
    (cur : Option AudioChunk) (rest : List AudioChunk)
    (hstream : ∀ c ∈ streamOf cur rest, c.width = w ∧ w ∣ c.audio.length)
    (m : AudioChunk) (l : Option AudioChunk) (rs : List AudioChunk)
    (h : evenNext cs cur rest = some (m, l, rs)) :
    chunk_sample_cnt m = cs := by
  cases hloop : evenLoop cs (streamOf cur rest) [] 0 with
  | none =>
    have hnone : evenNext cs cur rest = none := by
      unfold evenNext; rw [hloop]
    rw [hnone] at h
    exact Option.noConfusion h
  | some x =>
    obtain ⟨q, l0, rs0⟩ := x
    obtain ⟨hfq, hbq⟩ := evenLoop_spec cs w hw (streamOf cur rest) [] 0 q l0 rs0 hstream
      (by simp) (by simp [byteLen]) hloop
    rw [Nat.max_eq_left (Nat.zero_le cs)] at hbq
    cases q with
    | nil =>
      have h0 : (0 : ℕ) = cs * w := by simpa [byteLen] using hbq.symm
      exact absurd h0.symm (Nat.mul_pos hcs hw).ne'
    | cons qh qt =>
      have hval : evenNext cs cur rest =
          some (⟨qh.start_time, ((qh :: qt).map (fun x => x.audio)).join, qh.width, qh.freq⟩,
                l0, rs0) := by
        unfold evenNext; rw [hloop]; rfl
      rw [hval] at h
      simp only [Option.some.injEq, Prod.mk.injEq] at h
      obtain ⟨rfl, rfl, rfl⟩ := h
      have hqh := hfq qh (by simp)
      simp only [chunk_sample_cnt]
      have hlen : (((qh :: qt).map (fun x => x.audio)).join).length = byteLen (qh :: qt) := by
        simp only [byteLen, List.length_join, List.map_map]
        rfl
      rw [hlen, hbq, hqh.1]
      exact Nat.mul_div_cancel cs hw

lemma evenNext_none (cs : ℕ) (cur : Option AudioChunk) (rest : List AudioChunk)
    (h : sampleSum (streamOf cur rest) < cs) : evenNext cs cur rest = none := by
  unfold evenNext
  rw [evenLoop_none cs (streamOf cur rest) [] 0 (by omega)]

/-- C3: every chunk successfully returned by an EvenChunkIterator pull over a
well-formed stream (uniform positive sample width dividing every buffer
length) has exactly chunk_size samples, and when the remaining stream holds
fewer than chunk_size samples the pull fails (EndOfStream) instead of
returning a partial chunk. -/
theorem resegmenter_exact_sizing (cs w : ℕ) (hcs : 0 < cs) (hw : 0 < w)
    (cur : Option AudioChunk) (rest : List AudioChunk)
    (hstream : ∀ c ∈ streamOf cur rest, c.width = w ∧ w ∣ c.audio.length) :
    (∀ (m : AudioChunk) (l : Option AudioChunk) (rs : List AudioChunk),
        evenNext cs cur rest = some (m, l, rs) → chunk_sample_cnt m = cs)
    ∧ (sampleSum (streamOf cur rest) < cs → evenNext cs cur rest = none) :=
  ⟨fun m l rs h => evenNext_size cs w hcs hw cur rest hstream m l rs h,
   fun h => evenNext_none cs cur rest h⟩

/-- Witness for C3: with chunk_size 2 over a single 2-sample chunk of width 1
the pull returns a 2-sample chunk, and over an empty stream it fails. -/
theorem resegmenter_exact_sizing_witness :
    chunk_sample_cnt ⟨0, [5, 6], 1, 8000⟩ = 2 ∧ evenNext 2 none [] = none := by
  constructor
  · exact (resegmenter_exact_sizing 2 1 (by decide) (by decide) none
      [⟨0, [5, 6], 1, 8000⟩] (by decide)).1 ⟨0, [5, 6], 1, 8000⟩ none [] (by decide)
  · exact (resegmenter_exact_sizing 2 1 (by decide) (by decide) none [] (by decide)).2
      (by decide)

/-- C1 (code_bug evaluation): at the concrete chunk with audio bytes
[1,2,3,4,5,6], width 2 (3 samples) and sample offset 1, the second chunk
produced by split_chunk carries bytes [3,4,5,6] rather than the final sample
[5,6]: the two parts overlap instead of partitioning the buffer, and merging
them yields [1,2,3,4,3,4,5,6], which lengthens the original rather than
reproducing it. -/
theorem split_merge_inverse_violated :
    split_chunk ⟨0, [1,2,3,4,5,6], 2, 16000⟩ 1
      = (⟨0, [1,2,3,4], 2, 16000⟩, ⟨0, [3,4,5,6], 2, 16000⟩)
    ∧ merge_chunks [(split_chunk ⟨0, [1,2,3,4,5,6], 2, 16000⟩ 1).1,
                    (split_chunk ⟨0, [1,2,3,4,5,6], 2, 16000⟩ 1).2]
      = some ⟨0, [1,2,3,4,3,4,5,6], 2, 16000⟩
    ∧ ([1,2,3,4,3,4,5,6] : List ℕ).length = 8
    ∧ ([1,2,3,4,5,6] : List ℕ).length = 6 := by
  refine ⟨by decide, by decide, by decide, by decide⟩

/-- C2 (code_bug evaluation): resegmenting the single 3-sample input chunk
[1,2,3,4,5,6] (width 2) with chunk_size 2 emits a first chunk [1,2,3,4] with
carry [3,4,5,6], then a second chunk [3,4,5,6]; the concatenated output
[1,2,3,4,3,4,5,6] has 8 bytes against 6 input bytes, duplicating bytes 3,4,
so it is not a truncation of the input stream. -/
theorem resegmenter_not_lossless :
    evenNext 2 none [⟨0, [1,2,3,4,5,6], 2, 16000⟩]
      = some (⟨0, [1,2,3,4], 2, 16000⟩, some ⟨0, [3,4,5,6], 2, 16000⟩, [])
    ∧ evenNext 2 (some ⟨0, [3,4,5,6], 2, 16000⟩) []
      = some (⟨0, [3,4,5,6], 2, 16000⟩, none, [])
    ∧ ([1,2,3,4] : List ℕ) ++ [3,4,5,6] = [1,2,3,4,3,4,5,6]
    ∧ (∀ k : ℕ, (List.take k ([1,2,3,4,5,6] : List ℕ)).length ≤ 6)
    ∧ ([1,2,3,4,3,4,5,6] : List ℕ).length = 8 := by
  refine ⟨by decide, by decide, by decide, ?_, by decide⟩
  intro k
  simp [List.length_take]

lemma cnt_exampleChunk (t : ℚ) : chunk_sample_cnt (exampleChunk t) = 1000 := by
  simp [-List.reduceReplicate, exampleChunk, chunk_sample_cnt]

lemma cnt_exampleLeft : chunk_sample_cnt exampleLeft = 600 := by
  simp [-List.reduceReplicate, exampleLeft, chunk_sample_cnt]

lemma split_exampleChunk : split_chunk (exampleChunk 1) ((1000 + 1000 - 1600 : ℕ) : ℤ)
    = (⟨1, List.replicate 1200 0, 2, 16000⟩, exampleLeft) := by
  simp [-List.reduceReplicate, split_chunk, exampleChunk, exampleLeft, pyTake, pyDrop,
    List.take_replicate, List.drop_replicate]

lemma example_loop1a : evenLoop 1600 [exampleChunk 0, exampleChunk 1, exampleChunk 2] [] 0
    = evenLoop 1600 [exampleChunk 1, exampleChunk 2] [exampleChunk 0] 1000 := by
  rw [evenLoop, cnt_exampleChunk]
  rw [if_pos (by norm_num : (0 : ℕ) < 1600), if_neg (by norm_num : ¬ (1600 : ℕ) < 0 + 1000)]
  norm_num

lemma example_loop1b : evenLoop 1600 [exampleChunk 1, exampleChunk 2] [exampleChunk 0] 1000
    = some ([exampleChunk 0, ⟨1, List.replicate 1200 0, 2, 16000⟩],
            some exampleLeft, [exampleChunk 2]) := by
  rw [evenLoop, cnt_exampleChunk, split_exampleChunk]
  rw [if_pos (by norm_num : (1000 : ℕ) < 1600),
      if_pos (by norm_num : (1600 : ℕ) < 1000 + 1000)]
  simp [-List.reduceReplicate]

lemma example_merge1 : merge_chunks [exampleChunk 0, ⟨1, List.replicate 1200 0, 2, 16000⟩]
    = some ⟨0, List.replicate 3200 0, 2, 16000⟩ := by
  simp [-List.reduceReplicate, merge_chunks, exampleChunk, List.join, ← List.replicate_add]

lemma example_pull1 :
    evenNext 1600 none [exampleChunk 0, exampleChunk 1, exampleChunk 2]
      = some (⟨0, List.replicate 3200 0, 2, 16000⟩, some exampleLeft, [exampleChunk 2]) := by
  simp only [evenNext, streamOf, example_loop1a.trans example_loop1b, example_merge1]

lemma example_loop2a : evenLoop 1600 [exampleLeft, exampleChunk 2] [] 0
    = evenLoop 1600 [exampleChunk 2] [exampleLeft] 600 := by
  rw [evenLoop, cnt_exampleLeft]
  rw [if_pos (by norm_num : (0 : ℕ) < 1600), if_neg (by norm_num : ¬ (1600 : ℕ) < 0 + 600)]
  norm_num

lemma example_loop2b : evenLoop 1600 [exampleChunk 2] [exampleLeft] 600
    = evenLoop 1600 [] [exampleLeft, exampleChunk 2] 1600 := by
  conv_lhs => rw [evenLoop]
  rw [cnt_exampleChunk]
  rw [if_pos (by norm_num : (600 : ℕ) < 1600),
      if_neg (by norm_num : ¬ (1600 : ℕ) < 600 + 1000)]
  norm_num

lemma example_loop2c : evenLoop 1600 [] [exampleLeft, exampleChunk 2] 1600
    = some ([exampleLeft, exampleChunk 2], none, []) := by
  rw [evenLoop, if_neg (by norm_num : ¬ (1600 : ℕ) < 1600)]

lemma example_merge2 : merge_chunks [exampleLeft, exampleChunk 2]
    = some ⟨1, List.replicate 3200 0, 2, 16000⟩ := by
  simp [-List.reduceReplicate, merge_chunks, exampleLeft, exampleChunk, List.join,
    ← List.replicate_add]

lemma example_pull2 :
    evenNext 1600 (some exampleLeft) [exampleChunk 2]
      = some (⟨1, List.replicate 3200 0, 2, 16000⟩, none, []) := by
  simp only [evenNext, streamOf, (example_loop2a.trans example_loop2b).trans example_loop2c,
    example_merge2]

lemma evenNext_1600_nil : evenNext 1600 none ([] : List AudioChunk) = none := by
  have h : evenLoop 1600 ([] : List AudioChunk) [] 0 = none := by
    rw [evenLoop, if_pos (by norm_num : (0 : ℕ) < 1600)]
  simp only [evenNext, streamOf, h]

/-- C4 (counterexample): in the worked example with chunk_size 1600 and three
1000-sample inputs, the first pull carries over 600 samples (not 400), and
after the second output the carry slot is empty: the mapped carry component
of the second pull is some none, so no 400-sample leftover remains after the
second output as the claim states. -/
theorem resegmenter_example_counterexample :
    evenNext 1600 none [exampleChunk 0, exampleChunk 1, exampleChunk 2]
      = some (⟨0, List.replicate 3200 0, 2, 16000⟩, some exampleLeft, [exampleChunk 2])
    ∧ chunk_sample_cnt exampleLeft = 600
    ∧ (evenNext 1600 (some exampleLeft) [exampleChunk 2]).map (fun r => r.2.1)
      = some none := by
  refine ⟨example_pull1, cnt_exampleLeft, ?_⟩
  rw [example_pull2]
  rfl

/-- C4 (amended): with chunk_size 1600 and inputs of 1000, 1000, 1000 samples
(width 2), the code emits two chunks of 1600 samples each; after the first
output 600 samples are carried over (the second half of the second input,
overlapping 200 samples already emitted), after the second output no carry
remains, and a third pull fails with EndOfStream. -/
theorem resegmenter_example_trace :
    evenNext 1600 none [exampleChunk 0, exampleChunk 1, exampleChunk 2]
      = some (⟨0, List.replicate 3200 0, 2, 16000⟩, some exampleLeft, [exampleChunk 2])
    ∧ chunk_sample_cnt (⟨0, List.replicate 3200 0, 2, 16000⟩ : AudioChunk) = 1600
    ∧ chunk_sample_cnt exampleLeft = 600
    ∧ evenNext 1600 (some exampleLeft) [exampleChunk 2]
      = some (⟨1, List.replicate 3200 0, 2, 16000⟩, none, [])
    ∧ chunk_sample_cnt (⟨1, List.replicate 3200 0, 2, 16000⟩ : AudioChunk) = 1600
    ∧ evenNext 1600 none [] = none := by
  refine ⟨example_pull1, by simp [-List.reduceReplicate, chunk_sample_cnt],
    cnt_exampleLeft, example_pull2,
    by simp [-List.reduceReplicate, chunk_sample_cnt], evenNext_1600_nil⟩

/-- C8 (counterexample): merge_chunks silently succeeds on chunks whose width
and freq disagree, inheriting the first chunk's format, and split_chunk
succeeds without error both on an offset exceeding the sample count (yielding
empty buffers) and on a negative offset. -/
theorem chunk_algebra_never_checks_formats :
    merge_chunks [⟨0, [1, 2], 2, 8000⟩, ⟨0, [3], 1, 16000⟩]
      = some ⟨0, [1, 2, 3], 2, 8000⟩
    ∧ split_chunk ⟨0, [1, 2], 1, 8000⟩ 5 = (⟨0, [], 1, 8000⟩, ⟨0, [], 1, 8000⟩)
    ∧ split_chunk ⟨0, [1, 2], 1, 8000⟩ (-1) = (⟨0, [1], 1, 8000⟩, ⟨0, [2], 1, 8000⟩) := by
  refine ⟨by decide, by decide, by decide⟩

/-- C8 (amended): merge_chunks fails exactly on the empty sequence; any two
chunks merge successfully regardless of format mismatch, concatenating the
buffers and inheriting the first chunk's width and freq; and split_chunk is
total, always returning the two Python-slice chunks for any integer offset. -/
theorem merge_split_failure_conditions :
    (∀ chunks : List AudioChunk, merge_chunks chunks = none ↔ chunks = [])
    ∧ (∀ c1 c2 : AudioChunk, ∃ mc, merge_chunks [c1, c2] = some mc
        ∧ mc.audio = c1.audio ++ c2.audio ∧ mc.width = c1.width ∧ mc.freq = c1.freq)
    ∧ (∀ (c : AudioChunk) (k : ℤ),
        split_chunk c k
          = (⟨c.start_time, pyTake c.audio (-(k * (c.width : ℤ))), c.width, c.freq⟩,
             ⟨c.start_time, pyDrop c.audio (k * (c.width : ℤ)), c.width, c.freq⟩)) := by
  refine ⟨?_, ?_, ?_⟩
  · intro chunks
    cases chunks with
    | nil => simp [merge_chunks]
    | cons c r => simp [merge_chunks]
  · intro c1 c2
    refine ⟨_, rfl, ?_, rfl, rfl⟩
    simp [merge_chunks]
  · intro c k
    rfl

/-- Witness for the amended C8 statement at concrete inputs: the empty merge
fails, and a mismatched-format merge succeeds with the first chunk's format. -/
theorem merge_split_failure_conditions_witness :
    (merge_chunks [] = none ↔ ([] : List AudioChunk) = [])
    ∧ (∃ mc, merge_chunks [⟨0, [1, 2], 2, 8000⟩, ⟨0, [3], 1, 16000⟩] = some mc
        ∧ mc.audio = [1, 2] ++ [3] ∧ mc.width = 2 ∧ mc.freq = 8000) := by
  constructor
  · exact merge_split_failure_conditions.1 []
  · exact merge_split_failure_conditions.2.1 ⟨0, [1, 2], 2, 8000⟩ ⟨0, [3], 1, 16000⟩

/-- C5: at a steady-state step, with m the selected median of the RMS values
of the chunks in the lookback buffer (one of those RMS values), and the same
squelch_level passed for both thresholds as get_chunk does: from Active the
detector leaves Active exactly when m is below squelch_level times 0.8, and
from Silence it becomes Active exactly when m exceeds squelch_level. -/
theorem check_squelch_hysteresis (rmsF : List ℕ → ℕ → ℕ) (level : ℚ)
    (chunks : List AudioChunk) (m : ℕ)
    (hm : median_rms (rmsList rmsF chunks) = some m) :
    m ∈ rmsList rmsF chunks
    ∧ (check_squelch rmsF level level true chunks = some false ↔ (m : ℚ) < level * (8 / 10))
    ∧ (check_squelch rmsF level level true chunks = some true ↔ ¬ (m : ℚ) < level * (8 / 10))
    ∧ (check_squelch rmsF level level false chunks = some true ↔ level < (m : ℚ))
    ∧ (check_squelch rmsF level level false chunks = some false ↔ ¬ level < (m : ℚ)) := by
  have hmem : m ∈ rmsList rmsF chunks := by
    have h1 : m ∈ List.insertionSort (fun a b => a ≤ b) (rmsList rmsF chunks) :=
      List.get?_mem hm
    exact (List.perm_insertionSort (fun a b => a ≤ b) (rmsList rmsF chunks)).mem_iff.mp h1
  have hA : check_squelch rmsF level level true chunks
      = if (m : ℚ) < level * (8 / 10) then some false else some true := by
    simp [check_squelch, hm]
  have hB : check_squelch rmsF level level false chunks
      = if level < (m : ℚ) then some true else some false := by
    simp [check_squelch, hm]
  refine ⟨hmem, ?_, ?_, ?_, ?_⟩
  · rw [hA]; split_ifs with h <;> simp [h]
  · rw [hA]; split_ifs with h <;> simp [h]
  · rw [hB]; split_ifs with h <;> simp [h]
  · rw [hB]; split_ifs with h <;> simp [h]

/-- Witness for C5 at a concrete buffer: the median RMS is 3 and with
squelch_level 2 the Silence state transitions to Active since 2 < 3. -/
theorem check_squelch_hysteresis_witness :
    median_rms (rmsList (fun a _ => a.length) [⟨0, [1, 2, 3], 1, 8000⟩]) = some 3
    ∧ (check_squelch (fun a _ => a.length) 2 2 false [⟨0, [1, 2, 3], 1, 8000⟩] = some true
        ↔ (2 : ℚ) < ((3 : ℕ) : ℚ)) := by
  exact ⟨by decide, (check_squelch_hysteresis (fun a _ => a.length) 2
    [⟨0, [1, 2, 3], 1, 8000⟩] 3 (by decide)).2.2.2.1⟩

/-- C6: the output policy of one get_chunk loop iteration. When the pull
succeeds and the squelch state is recomputed over the updated lookback
buffer: on a Silence to Active transition the iteration emits the merged
lookback buffer, whose byte length is the sum of the byte lengths of the
chunks held in the buffer; while remaining Active it emits the chunk just
pulled; when the new state is Silence it emits nothing and the loop repeats
on the updated state. -/
theorem squelch_output_policy (rmsF : List ℕ → ℕ → ℕ) (level : ℚ) (maxlen cs : ℕ)
    (st : SState) (chunk : AudioChunk) (cur2 : Option AudioChunk)
    (rest2 : List AudioChunk) (t : Bool)
    (hpull : evenNext cs st.cur st.rest = some (chunk, cur2, rest2))
    (hcheck : check_squelch rmsF level level st.triggered
        (pushRing maxlen st.recent chunk) = some t) :
    (st.triggered = false → t = true →
      ∃ mc, merge_chunks (pushRing maxlen st.recent chunk) = some mc
        ∧ getChunkIter rmsF level maxlen cs st
            = StepResult.emit mc ⟨t, pushRing maxlen st.recent chunk, cur2, rest2⟩
        ∧ mc.audio.length = byteLen (pushRing maxlen st.recent chunk))
    ∧ (st.triggered = true → t = true →
        getChunkIter rmsF level maxlen cs st
          = StepResult.emit chunk ⟨t, pushRing maxlen st.recent chunk, cur2, rest2⟩)
    ∧ (t = false →
        getChunkIter rmsF level maxlen cs st
          = StepResult.again ⟨t, pushRing maxlen st.recent chunk, cur2, rest2⟩
        ∧ ∀ fuel : ℕ,
            getChunkLoop rmsF level maxlen cs (fuel + 1) st
              = getChunkLoop rmsF level maxlen cs fuel
                  ⟨t, pushRing maxlen st.recent chunk, cur2, rest2⟩) := by
  have hne : pushRing maxlen st.recent chunk ≠ [] := by
    intro hnil
    rw [hnil] at hcheck
    simp [check_squelch, median_rms, rmsList, List.insertionSort] at hcheck
  obtain ⟨rh, rt, hRc⟩ : ∃ rh rt, pushRing maxlen st.recent chunk = rh :: rt := by
    cases hcase : pushRing maxlen st.recent chunk with
    | nil => exact absurd hcase hne
    | cons rh rt => exact ⟨rh, rt, rfl⟩
  rw [hRc] at hcheck
  refine ⟨?_, ?_, ?_⟩
  · intro htr ht
    rw [htr, ht] at hcheck
    refine ⟨⟨rh.start_time, ((rh :: rt).map (fun x => x.audio)).join, rh.width, rh.freq⟩,
      ?_, ?_, ?_⟩
    · rw [hRc]; rfl
    · simp [getChunkIter, hpull, hRc, hcheck, htr, ht, merge_chunks]
    · rw [hRc]
      simp only [List.length_join, List.map_map]
      rfl
  · intro htr ht
    rw [htr, ht] at hcheck
    simp [getChunkIter, hpull, hRc, hcheck, htr, ht]
  · intro ht
    rw [ht] at hcheck
    have hiter : getChunkIter rmsF level maxlen cs st
        = StepResult.again ⟨t, pushRing maxlen st.recent chunk, cur2, rest2⟩ := by
      simp [getChunkIter, hpull, hRc, hcheck, ht]
    refine ⟨hiter, ?_⟩
    intro fuel
    rw [getChunkLoop, hiter]

/-- Witness for C6 at a concrete Silence to Active step: the single pulled
chunk forms the buffer, the emitted chunk is the merged buffer and its byte
length equals the buffer total. -/
theorem squelch_output_policy_witness :
    ∃ mc, merge_chunks (pushRing 2 [] ⟨0, [7, 7], 2, 16000⟩) = some mc
      ∧ getChunkIter (fun a _ => a.length) 1 2 1 ⟨false, [], none, [⟨0, [7, 7], 2, 16000⟩]⟩
          = StepResult.emit mc ⟨true, pushRing 2 [] ⟨0, [7, 7], 2, 16000⟩, none, []⟩
      ∧ mc.audio.length = byteLen (pushRing 2 [] ⟨0, [7, 7], 2, 16000⟩) := by
  exact (squelch_output_policy (fun a _ => a.length) 1 2 1
    ⟨false, [], none, [⟨0, [7, 7], 2, 16000⟩]⟩ ⟨0, [7, 7], 2, 16000⟩ none [] true
    (by decide) (by decide)).1 rfl rfl

/-- C7: the calibration level is the element at rank
floor(threshold * count) of the ascending-sorted RMS values of the
qualifying chunks (the sort is a sorted permutation of those values), and in
particular over qualifying RMS values 10, 20, 30, 40, 50 with threshold 0.8
the rank is 4 and the selected level is 50. -/
theorem detect_level_rank_selection (rmsF : List ℕ → ℕ → ℕ) (s : SquelchedSource)
    (threshold : ℚ) (audio_chunks : List AudioChunk) :
    detect_level rmsF s threshold audio_chunks
      = (List.insertionSort (fun a b => a ≤ b)
          (calib_rms_vals rmsF s audio_chunks))[(Int.toNat
            ⌊threshold * ((calib_rms_vals rmsF s audio_chunks).length : ℚ)⌋)]?
    ∧ List.Sorted (fun a b => a ≤ b)
        (List.insertionSort (fun a b => a ≤ b) (calib_rms_vals rmsF s audio_chunks))
    ∧ (List.insertionSort (fun a b => a ≤ b) (calib_rms_vals rmsF s audio_chunks)).Perm
        (calib_rms_vals rmsF s audio_chunks)
    ∧ detect_level (fun a _ => a.headD 0) (SquelchedSource.init 1 none 2) (8 / 10)
        [⟨0, [30, 0], 2, 16000⟩, ⟨0, [10, 0], 2, 16000⟩, ⟨0, [50, 0], 2, 16000⟩,
         ⟨0, [20, 0], 2, 16000⟩, ⟨0, [40, 0], 2, 16000⟩] = some 50 := by
  refine ⟨?_, List.sorted_insertionSort _ _, List.perm_insertionSort _ _, ?_⟩
  case refine_2 =>
    have hcal : calib_rms_vals (fun a _ => a.headD 0) (SquelchedSource.init 1 none 2)
        [⟨0, [30, 0], 2, 16000⟩, ⟨0, [10, 0], 2, 16000⟩, ⟨0, [50, 0], 2, 16000⟩,
         ⟨0, [20, 0], 2, 16000⟩, ⟨0, [40, 0], 2, 16000⟩] = [30, 10, 50, 20, 40] := by
      decide
    unfold detect_level
    rw [hcal]
    rw [show (⌊(8 / 10 : ℚ) * ((([30, 10, 50, 20, 40] : List ℕ).length : ℕ) : ℚ)⌋ : ℤ)
        = 4 by norm_num]
    decide
  have hhead : detect_level rmsF s threshold audio_chunks
      = ((List.insertionSort (fun a b => a ≤ b) (calib_rms_vals rmsF s audio_chunks)).drop
          (Int.toNat ⌊threshold * ((calib_rms_vals rmsF s audio_chunks).length : ℚ)⌋)).head? := by
    unfold detect_level
    cases ((List.insertionSort (fun a b => a ≤ b) (calib_rms_vals rmsF s audio_chunks)).drop
          (Int.toNat ⌊threshold * ((calib_rms_vals rmsF s audio_chunks).length : ℚ)⌋)) with
    | nil => rfl
    | cons v vs => rfl
  rw [hhead, List.head?_drop]

/-- C9: when no pulled calibration chunk has the expected byte length
(sample_size times sample width), the RMS sample is empty and
detect_squelch_level fails rather than setting a level. -/
theorem detect_level_insufficient_data (rmsF : List ℕ → ℕ → ℕ) (s : SquelchedSource)
    (threshold : ℚ) (audio_chunks : List AudioChunk)
    (h : ∀ x ∈ audio_chunks, x.audio.length ≠ s.sample_size * s.sample_width) :
    detect_level rmsF s threshold audio_chunks = none := by
  have hfilter :
      audio_chunks.filter (fun x => x.audio.length = s.sample_size * s.sample_width) = [] := by
    rw [List.filter_eq_nil_iff]
    intro a ha
    simpa using h a ha
  unfold detect_level calib_rms_vals
  rw [hfilter]
  simp [Int.floor_zero]

/-- Witness for C9: a single 3-byte chunk never matches the 2-byte window of
a detector with sample_size 1, so calibration fails. -/
theorem detect_level_insufficient_data_witness :
    detect_level (fun a _ => a.length) (SquelchedSource.init 1 none 2) (8 / 10)
      [⟨0, [1, 2, 3], 2, 16000⟩] = none :=
  detect_level_insufficient_data (fun a _ => a.length) (SquelchedSource.init 1 none 2)
    (8 / 10) [⟨0, [1, 2, 3], 2, 16000⟩] (by decide)

/-- C10: a SquelchedSource built with any sample_size stores 1600 as the
chunk size of its steady-state resegmenting iterator, while the calibration
iterator uses the given sample_size; the two coincide exactly when
sample_size is 1600, and every successful steady-state pull over a
well-formed stream yields a chunk of 1600 samples regardless of
sample_size. -/
theorem squelched_source_window_sizes (s : ℕ) (lvl : Option ℚ) (p : ℕ) :
    (SquelchedSource.init s lvl p).even_iter_cs = 1600
    ∧ (SquelchedSource.init s lvl p).calib_iter_cs = s
    ∧ ((SquelchedSource.init s lvl p).calib_iter_cs
        = (SquelchedSource.init s lvl p).even_iter_cs ↔ s = 1600)
    ∧ (∀ (w : ℕ) (cur : Option AudioChunk) (rest : List AudioChunk)
        (m : AudioChunk) (l : Option AudioChunk) (rs : List AudioChunk), 0 < w →
        (∀ c ∈ streamOf cur rest, c.width = w ∧ w ∣ c.audio.length) →
        evenNext (SquelchedSource.init s lvl p).even_iter_cs cur rest = some (m, l, rs) →
        chunk_sample_cnt m = 1600) := by
  refine ⟨rfl, rfl, Iff.rfl, ?_⟩
  intro w cur rest m l rs hw hstream h
  exact evenNext_size 1600 w (by norm_num) hw cur rest hstream m l rs h

/-- Witness for C10: with sample_size 800 the steady iterator still uses
1600, calibration uses 800, and the pull of the worked example yields a
1600-sample chunk. -/
theorem squelched_source_window_sizes_witness :
    (SquelchedSource.init 800 none 2).even_iter_cs = 1600
    ∧ (SquelchedSource.init 800 none 2).calib_iter_cs = 800
    ∧ chunk_sample_cnt (⟨0, List.replicate 3200 0, 2, 16000⟩ : AudioChunk) = 1600 := by
  refine ⟨(squelched_source_window_sizes 800 none 2).1,
    (squelched_source_window_sizes 800 none 2).2.1, ?_⟩
  exact (squelched_source_window_sizes 800 none 2).2.2.2 2 none
    [exampleChunk 0, exampleChunk 1, exampleChunk 2]
    ⟨0, List.replicate 3200 0, 2, 16000⟩ (some exampleLeft) [exampleChunk 2]
    (by norm_num)
    (by intro c hc
        simp only [streamOf, List.mem_cons, List.not_mem_nil, or_false] at hc
        rcases hc with rfl | rfl | rfl <;>
          exact ⟨rfl, by
            rw [show (exampleChunk _).audio.length = 2000 by
              simp [-List.reduceReplicate, exampleChunk]]
            decide⟩)
    example_pull1

end StreamToText
